import Mathlib

/-!
Verification of the MidpassStatusBot core (src/main.py) against its
natural-language specification.

Python dictionaries are embedded as association lists (insertion-ordered,
at most one binding per key in any state reachable by the program; the
well-formedness hypotheses below make that explicit where a proof needs it).
`None` becomes `Option.none`; machine integers are `Int` (chat ids can be
negative in Telegram); uids are `String`.
-/

/-- Ordered-dictionary lookup: first binding of the key, like Python `d.get(k)`. -/
def dlookup {α β : Type} [DecidableEq α] : List (α × β) → α → Option β
  | [], _ => none
  | (k, v) :: rest, a => if k = a then some v else dlookup rest a

/-- Helper for in-place overwrite of one key's value. -/
def replaceKey {α β : Type} [DecidableEq α] (k : α) (v : β) (kv : α × β) : α × β :=
  if kv.1 = k then (k, v) else kv

/-- Ordered-dictionary write `d[k] = v`: replaces the binding in place when the
key is present (Python dicts keep insertion order on overwrite), appends otherwise. -/
def dinsert {α β : Type} [DecidableEq α] (m : List (α × β)) (k : α) (v : β) : List (α × β) :=
  if (dlookup m k).isSome then m.map (replaceKey k v)
  else m ++ [(k, v)]

/-- Ordered-dictionary delete `del d[k]`: removes every binding of the key
(a real dict has at most one). -/
def ddelete {α β : Type} [DecidableEq α] (m : List (α × β)) (k : α) : List (α × β) :=
  m.filter (fun kv => kv.1 ≠ k)

theorem dlookup_cons {α β : Type} [DecidableEq α] (k a : α) (v : β) (rest : List (α × β)) :
    dlookup ((k, v) :: rest) a = if k = a then some v else dlookup rest a := rfl

theorem replaceKey_pos {α β : Type} [DecidableEq α] (k k1 : α) (v v1 : β) (h : k1 = k) :
    replaceKey k v (k1, v1) = (k, v) := by simp [replaceKey, h]

theorem replaceKey_neg {α β : Type} [DecidableEq α] (k k1 : α) (v v1 : β) (h : ¬ k1 = k) :
    replaceKey k v (k1, v1) = (k1, v1) := by simp [replaceKey, h]

theorem ddelete_cons_pos {α β : Type} [DecidableEq α]
    (k k1 : α) (v1 : β) (rest : List (α × β)) (h : k1 = k) :
    ddelete ((k1, v1) :: rest) k = ddelete rest k := by
  simp [ddelete, List.filter_cons, h]

theorem ddelete_cons_neg {α β : Type} [DecidableEq α]
    (k k1 : α) (v1 : β) (rest : List (α × β)) (h : ¬ k1 = k) :
    ddelete ((k1, v1) :: rest) k = (k1, v1) :: ddelete rest k := by
  simp [ddelete, List.filter_cons, h]

theorem dlookup_replace_self {α β : Type} [DecidableEq α]
    (m : List (α × β)) (k : α) (v : β) :
    dlookup (m.map (replaceKey k v)) k =
      if (dlookup m k).isSome then some v else none := by
  induction m with
  | nil => simp [dlookup]
  | cons kv rest ih =>
    cases kv with
    | mk k1 v1 =>
      by_cases hk : k1 = k
      · rw [List.map_cons, replaceKey_pos k k1 v v1 hk, dlookup_cons, if_pos rfl,
          dlookup_cons, if_pos hk]
        simp
      · rw [List.map_cons, replaceKey_neg k k1 v v1 hk, dlookup_cons, if_neg hk,
          dlookup_cons, if_neg hk]
        exact ih

theorem dlookup_replace_ne {α β : Type} [DecidableEq α]
    (m : List (α × β)) (k a : α) (v : β) (hne : k ≠ a) :
    dlookup (m.map (replaceKey k v)) a = dlookup m a := by
  induction m with
  | nil => simp
  | cons kv rest ih =>
    cases kv with
    | mk k1 v1 =>
      by_cases hk : k1 = k
      · rw [List.map_cons, replaceKey_pos k k1 v v1 hk, dlookup_cons, if_neg hne,
          dlookup_cons, if_neg (hk ▸ hne)]
        exact ih
      · rw [List.map_cons, replaceKey_neg k k1 v v1 hk, dlookup_cons, dlookup_cons]
        by_cases hka : k1 = a
        · simp [hka]
        · rw [if_neg hka, if_neg hka]
          exact ih

theorem dlookup_append_single {α β : Type} [DecidableEq α]
    (m : List (α × β)) (k a : α) (v : β) :
    dlookup (m ++ [(k, v)]) a =
      if (dlookup m a).isSome then dlookup m a
      else if k = a then some v else none := by
  induction m with
  | nil => simp [dlookup]
  | cons kv rest ih =>
    cases kv with
    | mk k1 v1 =>
      by_cases hka : k1 = a
      · simp [dlookup_cons, hka, List.cons_append]
      · rw [List.cons_append, dlookup_cons, if_neg hka, dlookup_cons, if_neg hka]
        exact ih

theorem dlookup_dinsert_self {α β : Type} [DecidableEq α]
    (m : List (α × β)) (k : α) (v : β) :
    dlookup (dinsert m k v) k = some v := by
  unfold dinsert
  by_cases h : (dlookup m k).isSome
  · rw [if_pos h, dlookup_replace_self, if_pos h]
  · rw [if_neg h, dlookup_append_single, if_neg h, if_pos rfl]

theorem dlookup_dinsert_ne {α β : Type} [DecidableEq α]
    (m : List (α × β)) (k a : α) (v : β) (hne : k ≠ a) :
    dlookup (dinsert m k v) a = dlookup m a := by
  unfold dinsert
  by_cases h : (dlookup m k).isSome
  · rw [if_pos h]
    exact dlookup_replace_ne m k a v hne
  · rw [if_neg h, dlookup_append_single]
    by_cases ha : (dlookup m a).isSome
    · rw [if_pos ha]
    · rw [if_neg ha, if_neg hne]
      cases hdl : dlookup m a with
      | none => rfl
      | some w => exact absurd (by simp [hdl]) ha

theorem dlookup_ddelete_self {α β : Type} [DecidableEq α] (m : List (α × β)) (k : α) :
    dlookup (ddelete m k) k = none := by
  induction m with
  | nil => rfl
  | cons kv rest ih =>
    cases kv with
    | mk k1 v1 =>
      by_cases hk : k1 = k
      · rw [ddelete_cons_pos k k1 v1 rest hk]
        exact ih
      · rw [ddelete_cons_neg k k1 v1 rest hk, dlookup_cons, if_neg hk]
        exact ih

theorem dlookup_ddelete_ne {α β : Type} [DecidableEq α]
    (m : List (α × β)) (k a : α) (hne : k ≠ a) :
    dlookup (ddelete m k) a = dlookup m a := by
  induction m with
  | nil => rfl
  | cons kv rest ih =>
    cases kv with
    | mk k1 v1 =>
      by_cases hk : k1 = k
      · rw [ddelete_cons_pos k k1 v1 rest hk, dlookup_cons, if_neg (hk ▸ hne)]
        exact ih
      · rw [ddelete_cons_neg k k1 v1 rest hk, dlookup_cons, dlookup_cons]
        by_cases hka : k1 = a
        · simp [hka]
        · rw [if_neg hka, if_neg hka]
          exact ih

/-! ## Decimal codec: Python `str()` / `int()` on chat-id keys -/

/-- ASCII digit character for a digit value. -/
def digitChar (d : Nat) : Char := Char.ofNat (48 + d)

/-- Python `str()` of a nonnegative integer: decimal digits, most significant first. -/
def pyStrOfNat (n : Nat) : String :=
  if n = 0 then "0" else String.mk (((Nat.digits 10 n).reverse).map digitChar)

/-- Python `str()` of an integer. -/
def pyStrOfInt (i : Int) : String :=
  if i < 0 then "-" ++ pyStrOfNat i.natAbs else pyStrOfNat i.toNat

/-- CPython's whitespace test (Py_UNICODE_ISSPACE), the set stripped by
`str.strip()` and by `int()` around a numeric literal: ASCII 0x09-0x0D,
0x1C-0x20, NEL, NBSP, Ogham space, the 0x2000-0x200A spaces, line/paragraph
separators, narrow NBSP, mathematical space and ideographic space. -/
def pyIsSpace (c : Char) : Bool :=
  (9 ≤ c.toNat ∧ c.toNat ≤ 13) ∨ (28 ≤ c.toNat ∧ c.toNat ≤ 32) ∨
  c.toNat = 133 ∨ c.toNat = 160 ∨ c.toNat = 5760 ∨
  (8192 ≤ c.toNat ∧ c.toNat ≤ 8202) ∨ c.toNat = 8232 ∨ c.toNat = 8233 ∨
  c.toNat = 8239 ∨ c.toNat = 8287 ∨ c.toNat = 12288

/-- Python `str.strip()` on a character list: drop leading and trailing
whitespace. -/
def pyStrip (cs : List Char) : List Char :=
  ((cs.dropWhile pyIsSpace).reverse.dropWhile pyIsSpace).reverse

/-- The zero codepoint of every run of ten Unicode decimal digits (category Nd,
the digits `int()` accepts), as defined by CPython's unicodedata; the ASCII
zero 48 comes first. -/
def pyDigitZeros : List Nat :=
  [48, 1632, 1776, 1984, 2406, 2534, 2662, 2790, 2918, 3046, 3174, 3302, 3430,
   3558, 3664, 3792, 3872, 4160, 4240, 6112, 6160, 6470, 6608, 6784, 6800,
   6992, 7088, 7232, 7248, 42528, 43216, 43264, 43472, 43504, 43600, 44016,
   65296, 66720, 68912, 69734, 69872, 69942, 70096, 70384, 70736, 70864,
   71248, 71360, 71472, 71904, 72016, 72784, 73040, 73120, 92768, 92864,
   93008, 120782, 120792, 120802, 120812, 120822, 123200, 123632, 125264,
   130032]

/-- Decimal value of a Unicode decimal digit (any script), `none` otherwise —
the per-character digit test of Python's `int()`. -/
def pyDigitVal? (c : Char) : Option Nat :=
  match pyDigitZeros.find? (fun z => z ≤ c.toNat ∧ c.toNat ≤ z + 9) with
  | some z => some (c.toNat - z)
  | none => none

/-- Digits after the first one: `int()` allows a single underscore between two
digits (not leading, not trailing, not doubled). -/
def pyDigitsRest : Nat → List Char → Option Nat
  | acc, [] => some acc
  | acc, c :: cs =>
    if c = '_' then
      match cs with
      | [] => none
      | c2 :: cs2 =>
        match pyDigitVal? c2 with
        | some d => pyDigitsRest (acc * 10 + d) cs2
        | none => none
    else
      match pyDigitVal? c with
      | some d => pyDigitsRest (acc * 10 + d) cs
      | none => none

/-- Parse a digit group: at least one digit, underscores only between digits. -/
def pyParseDigits : List Char → Option Nat
  | [] => none
  | c :: cs =>
    match pyDigitVal? c with
    | some d => pyDigitsRest d cs
    | none => none

/-- Python `int(s)` for strings (returning `none` where Python raises
`ValueError`): surrounding whitespace is stripped, an optional single `+` or
`-` sign is allowed, and the body is a group of Unicode decimal digits with
single underscores permitted between digits. -/
def pyIntOfString (s : String) : Option Int :=
  match pyStrip s.data with
  | [] => none
  | c :: cs =>
    if c = '-' then (pyParseDigits cs).map (fun n => -(n : Int))
    else if c = '+' then (pyParseDigits cs).map (fun n => (n : Int))
    else (pyParseDigits (c :: cs)).map (fun n => (n : Int))

/-! ## Data model (src/main.py globals) -/

/-- `subscriptions`: chat_id -> { uid: last_percent_or_None }. -/
abbrev Subs := List (Int × List (String × Option Int))

/-- `chat_notify_mode`: chat_id -> "on_change" | "daily". -/
abbrev Prefs := List (Int × String)

/-- `labels`: chat_id -> { uid: label }. -/
abbrev Labels := List (Int × List (String × String))

/-- `DEFAULT_NOTIFY_MODE` (src/main.py line 56). -/
def DEFAULT_NOTIFY_MODE : String := "on_change"

/-- A raw JSON scalar as it can appear as a stored percent value on disk or in
the API payload: null, an integer, a string, or anything else. -/
inductive RawValue
  | vnull
  | vint (n : Int)
  | vstr (s : String)
  | vother
deriving DecidableEq

/-- src/main.py `_normalize_last_percent`: None stays None, ints pass through,
strings are parsed with `int()` (None on ValueError), everything else is None. -/
def _normalize_last_percent (value : RawValue) : Option Int :=
  match value with
  | .vnull => none
  | .vint n => some n
  | .vstr s => pyIntOfString s
  | .vother => none

/-- Injection of an already-normalized optional percent back into a raw value
(Python passes the very same `Optional[int]` object around). -/
def rawOfOpt (p : Option Int) : RawValue :=
  match p with
  | none => .vnull
  | some n => .vint n

/-- The re-normalization scheduled_check applies to the snapshot's percent field. -/
def normOpt (p : Option Int) : Option Int := _normalize_last_percent (rawOfOpt p)

/-! ## Storage operations (src/main.py). Disk writes (`save_*`) have no effect
on the in-memory tables, so operations return the new table; where a claim is
about write amplification the operation also returns whether a save happened. -/

/-- src/main.py `get_notify_mode`. -/
def get_notify_mode (chat_notify_mode : Prefs) (chat_id : Int) : String :=
  (dlookup chat_notify_mode chat_id).getD DEFAULT_NOTIFY_MODE

/-- src/main.py `get_label`: `labels.get(chat_id, {}).get(uid)`. -/
def get_label (labels : Labels) (chat_id : Int) (uid : String) : Option String :=
  dlookup ((dlookup labels chat_id).getD []) uid

/-- Python truthiness test `not label or not label.strip()` on an optional
string: None, the empty string, and strings of Python whitespace only. -/
def pyBlank (label : Option String) : Bool :=
  match label with
  | none => true
  | some s => s.data.isEmpty || (pyStrip s.data).isEmpty

/-- src/main.py `set_label`: blank label deletes the mapping (pruning the chat
entry when its last label goes away), otherwise stores the stripped label. -/
def set_label (labels : Labels) (chat_id : Int) (uid : String) (label : Option String) :
    Labels :=
  if pyBlank label then
    match dlookup labels chat_id with
    | none => labels
    | some inner =>
      if (dlookup inner uid).isSome then
        let inner' := ddelete inner uid
        if inner'.isEmpty then ddelete labels chat_id
        else dinsert labels chat_id inner'
      else labels
  else
    let inner := (dlookup labels chat_id).getD []
    dinsert labels chat_id
      (dinsert inner uid (String.mk (pyStrip (label.getD "").data)))

/-- src/main.py `add_subscription`; the Bool records whether `save_subscriptions`
was called. -/
def add_subscription (subs : Subs) (chat_id : Int) (uid : String)
    (last_percent : Option Int) : Subs × Bool :=
  let subs1 := if (dlookup subs chat_id).isSome then subs else subs ++ [(chat_id, [])]
  let prev := (dlookup ((dlookup subs1 chat_id).getD []) uid).join
  if prev ≠ last_percent then
    (dinsert subs1 chat_id (dinsert ((dlookup subs1 chat_id).getD []) uid last_percent), true)
  else (subs1, false)

/-- src/main.py `get_last_percent`: `subscriptions.get(chat_id, {}).get(uid)`. -/
def get_last_percent (subs : Subs) (chat_id : Int) (uid : String) : Option Int :=
  (dlookup ((dlookup subs chat_id).getD []) uid).join

/-- src/main.py `set_last_percent`: unconditional overwrite. -/
def set_last_percent (subs : Subs) (chat_id : Int) (uid : String)
    (percent : Option Int) : Subs :=
  let subs1 := if (dlookup subs chat_id).isSome then subs else subs ++ [(chat_id, [])]
  dinsert subs1 chat_id (dinsert ((dlookup subs1 chat_id).getD []) uid percent)

/-- src/main.py `remove_subscription`: returns True when something was removed,
pruning the chat entry when its tracked set becomes empty. -/
def remove_subscription (subs : Subs) (chat_id : Int) (uid : String) : Subs × Bool :=
  match dlookup subs chat_id with
  | none => (subs, false)
  | some inner =>
    if (dlookup inner uid).isNone then (subs, false)
    else
      let inner' := ddelete inner uid
      if inner'.isEmpty then (ddelete subs chat_id, true)
      else (dinsert subs chat_id inner', true)

/-! ## Scheduled reconciliation (src/main.py `scheduled_check`) -/

/-- Externally observable sends of the scheduled run: a fetch-failure notice or
a status notification (photo + caption, summarized by its percent). -/
inductive Event
  | failNotice (chat_id : Int) (uid : String)
  | statusNotice (chat_id : Int) (uid : String) (percent : Option Int)
deriving DecidableEq

/-- One (chat_id, uid) iteration of the scheduled_check inner loop. `fetch uid =
none` models a failed fetch; `some p` a successful fetch whose snapshot carries
the already-normalized percent `p` (src/main.py lines 725-775). -/
def checkPair (prefs : Prefs) (fetch : String → Option (Option Int))
    (chat_id : Int) (uid : String) (subs : Subs) : List Event × Subs :=
  match fetch uid with
  | none => ([Event.failNotice chat_id uid], subs)
  | some praw =>
    let last_percent := get_last_percent subs chat_id uid
    let current_percent := normOpt praw
    let mode := get_notify_mode prefs chat_id
    if mode = "on_change" ∧ last_percent = current_percent then ([], subs)
    else ([Event.statusNotice chat_id uid current_percent],
      set_last_percent subs chat_id uid current_percent)

/-- The inner `for uid in list(uids.keys())` loop for one chat. -/
def checkChat (prefs : Prefs) (fetch : String → Option (Option Int)) (chat_id : Int) :
    List String → Subs → List Event × Subs
  | [], subs => ([], subs)
  | uid :: rest, subs =>
    let r1 := checkPair prefs fetch chat_id uid subs
    let r2 := checkChat prefs fetch chat_id rest r1.2
    (r1.1 ++ r2.1, r2.2)

/-- The outer `for chat_id, uids in list(subscriptions.items())` loop over a
snapshot of the table taken at run start. Earlier iterations only mutate other
chats' inner tables (and values, never key sets), so the key list read when a
chat's turn comes equals the snapshot's key list for that chat. -/
def runChats (prefs : Prefs) (fetch : String → Option (Option Int)) :
    List (Int × List (String × Option Int)) → Subs → List Event × Subs
  | [], subs => ([], subs)
  | (chat_id, inner) :: rest, subs =>
    let r1 := checkChat prefs fetch chat_id (inner.map Prod.fst) subs
    let r2 := runChats prefs fetch rest r1.2
    (r1.1 ++ r2.1, r2.2)

/-- src/main.py `scheduled_check`: walk all subscribers and tracked uids,
returning the sent events and the final subscriptions table. -/
def scheduled_check (prefs : Prefs) (fetch : String → Option (Option Int))
    (subs : Subs) : List Event × Subs :=
  runChats prefs fetch subs subs

/-! ## Command effects (src/main.py handlers) -/

/-- src/main.py `erase_data_command` effect on the three tables; the Bool is
`removed_anything` (drives "nothing to erase" reply). -/
def erase_data (subs : Subs) (prefs : Prefs) (labels : Labels) (chat_id : Int) :
    Subs × Prefs × Labels × Bool :=
  ((if (dlookup subs chat_id).isSome then ddelete subs chat_id else subs),
   (if (dlookup prefs chat_id).isSome then ddelete prefs chat_id else prefs),
   (if (dlookup labels chat_id).isSome then ddelete labels chat_id else labels),
   ((dlookup subs chat_id).isSome || (dlookup prefs chat_id).isSome ||
     (dlookup labels chat_id).isSome))

/-- src/main.py `remove_command` net state effect: `remove_subscription` (its
Bool drives the reply) followed unconditionally by `set_label(chat_id, uid,
None)`; `chat_notify_mode` is not touched by this handler. -/
def remove_command (subs : Subs) (prefs : Prefs) (labels : Labels)
    (chat_id : Int) (uid : String) : Subs × Prefs × Labels × Bool :=
  let r := remove_subscription subs chat_id uid
  (r.1, prefs, set_label labels chat_id uid none, r.2)

/-- The uids enumerated by src/main.py `list_command` for a chat:
`subscriptions.get(chat_id, {})` keys in order. -/
def list_command_uids (subs : Subs) (chat_id : Int) : List String :=
  ((dlookup subs chat_id).getD []).map Prod.fst

/-! ## Persistence: on-disk shapes, loaders and savers -/

/-- One decoded JSON value for a subscriptions-file entry: legacy array of uid
strings, current mapping uid -> raw percent, or anything else. -/
inductive RawSubsEntry
  | arr (uids : List String)
  | map (m : List (String × RawValue))
  | other

/-- One decoded JSON value for a labels-file entry: a mapping uid -> label
string, or anything else. -/
inductive RawLabelsEntry
  | map (m : List (String × String))
  | other

/-- src/main.py `load_subscriptions` migration loop: non-integer keys are
skipped; an array value becomes `{uid: None}`; a mapping value is normalized
per uid; any other value becomes an empty mapping for that chat. -/
def load_subscriptions (raw : List (String × RawSubsEntry)) : Subs :=
  raw.filterMap (fun kv =>
    match pyIntOfString kv.1 with
    | none => none
    | some chat_id =>
      match kv.2 with
      | .arr uids => some (chat_id, uids.map (fun uid => (uid, (none : Option Int))))
      | .map m => some (chat_id, m.map (fun p => (p.1, _normalize_last_percent p.2)))
      | .other => some (chat_id, []))

/-- src/main.py `save_subscriptions`: current mapping format, keys stringified. -/
def save_subscriptions (subs : Subs) : List (String × RawSubsEntry) :=
  subs.map (fun kv =>
    (pyStrOfInt kv.1, RawSubsEntry.map (kv.2.map (fun p => (p.1, rawOfOpt p.2)))))

/-- src/main.py `load_chat_prefs`: non-integer keys and modes outside
{"on_change", "daily"} are skipped. -/
def load_chat_prefs (raw : List (String × String)) : Prefs :=
  raw.filterMap (fun kv =>
    match pyIntOfString kv.1 with
    | none => none
    | some chat_id =>
      if kv.2 = "on_change" ∨ kv.2 = "daily" then some (chat_id, kv.2) else none)

/-- src/main.py `load_labels`: non-integer keys and non-mapping payloads are
skipped; mapping payloads are taken as-is (keys and values are already strings). -/
def load_labels (raw : List (String × RawLabelsEntry)) : Labels :=
  raw.filterMap (fun kv =>
    match pyIntOfString kv.1 with
    | none => none
    | some chat_id =>
      match kv.2 with
      | .map m => some (chat_id, m)
      | .other => none)

/-! ## Helper lemmas about the storage operations -/

theorem normOpt_id (p : Option Int) : normOpt p = p := by
  cases p <;> rfl

theorem dlookup_ensure (subs : Subs) (c a : Int) :
    dlookup (if (dlookup subs c).isSome then subs
      else subs ++ [(c, ([] : List (String × Option Int)))]) a =
      if (dlookup subs a).isSome then dlookup subs a
      else if c = a then some [] else none := by
  by_cases h : (dlookup subs c).isSome
  · rw [if_pos h]
    by_cases ha : (dlookup subs a).isSome
    · rw [if_pos ha]
    · rw [if_neg ha]
      have hca : ¬ c = a := by
        intro hc
        exact ha (hc ▸ h)
      rw [if_neg hca]
      exact Option.not_isSome_iff_eq_none.mp ha
  · rw [if_neg h, dlookup_append_single]

theorem get_last_percent_set_self (subs : Subs) (c : Int) (u : String) (p : Option Int) :
    get_last_percent (set_last_percent subs c u p) c u = p := by
  unfold set_last_percent get_last_percent
  simp only
  rw [dlookup_dinsert_self]
  simp only [Option.getD_some]
  rw [dlookup_dinsert_self]
  rfl

theorem get_last_percent_set_ne (subs : Subs) (c : Int) (u : String) (p : Option Int)
    (c' : Int) (u' : String) (h : ¬ (c = c' ∧ u = u')) :
    get_last_percent (set_last_percent subs c u p) c' u' = get_last_percent subs c' u' := by
  unfold set_last_percent get_last_percent
  simp only
  by_cases hc : c = c'
  · subst hc
    have hu : ¬ u = u' := fun hu => h ⟨rfl, hu⟩
    rw [dlookup_dinsert_self]
    simp only [Option.getD_some]
    rw [dlookup_dinsert_ne _ _ _ _ hu, dlookup_ensure]
    by_cases hs : (dlookup subs c).isSome
    · rw [if_pos hs]
    · rw [if_neg hs, if_pos rfl]
      rw [Option.not_isSome_iff_eq_none.mp hs]
      rfl
  · rw [dlookup_dinsert_ne _ _ _ _ hc, dlookup_ensure]
    by_cases hs : (dlookup subs c').isSome
    · rw [if_pos hs]
    · rw [if_neg hs, if_neg hc]
      rw [Option.not_isSome_iff_eq_none.mp hs]

theorem dlookup_isSome_iff_mem_keys {α β : Type} [DecidableEq α]
    (m : List (α × β)) (a : α) :
    (dlookup m a).isSome ↔ a ∈ m.map Prod.fst := by
  induction m with
  | nil => simp [dlookup]
  | cons kv rest ih =>
    cases kv with
    | mk k1 v1 =>
      rw [dlookup_cons]
      by_cases hk : k1 = a
      · simp [hk]
      · rw [if_neg hk]
        simp only [List.map_cons, List.mem_cons]
        rw [ih]
        constructor
        · intro hmem
          exact Or.inr hmem
        · intro hmem
          cases hmem with
          | inl heq => exact absurd heq.symm hk
          | inr hmem => exact hmem

theorem dlookup_eq_some_mem {α β : Type} [DecidableEq α]
    (m : List (α × β)) (a : α) (b : β) (h : dlookup m a = some b) : (a, b) ∈ m := by
  induction m with
  | nil => simp [dlookup] at h
  | cons kv rest ih =>
    cases kv with
    | mk k1 v1 =>
      rw [dlookup_cons] at h
      by_cases hk : k1 = a
      · rw [if_pos hk] at h
        subst hk
        cases h
        exact List.mem_cons_self _ _
      · rw [if_neg hk] at h
        exact List.mem_cons_of_mem _ (ih h)

theorem dlookup_conddelete_self {α β : Type} [DecidableEq α] (m : List (α × β)) (k : α) :
    dlookup (if (dlookup m k).isSome then ddelete m k else m) k = none := by
  by_cases h : (dlookup m k).isSome
  · rw [if_pos h]
    exact dlookup_ddelete_self m k
  · rw [if_neg h]
    exact Option.not_isSome_iff_eq_none.mp h

theorem dlookup_conddelete_ne {α β : Type} [DecidableEq α]
    (m : List (α × β)) (k a : α) (h : ¬ k = a) :
    dlookup (if (dlookup m k).isSome then ddelete m k else m) a = dlookup m a := by
  by_cases hs : (dlookup m k).isSome
  · rw [if_pos hs]
    exact dlookup_ddelete_ne m k a h
  · rw [if_neg hs]

theorem erase_data_of_none (S : Subs) (P : Prefs) (L : Labels) (c : Int)
    (hS : dlookup S c = none) (hP : dlookup P c = none) (hL : dlookup L c = none) :
    erase_data S P L c = (S, P, L, false) := by
  unfold erase_data
  rw [hS, hP, hL]
  rfl

/-- Claim C7: erase_data removes every entry of the chat from all three tables,
is idempotent (a second call changes nothing and reports `false`, i.e.
"nothing to erase"), and never touches other chats' entries. -/
theorem erase_all_spec (subs : Subs) (prefs : Prefs) (labels : Labels) (chat_id : Int) :
    dlookup (erase_data subs prefs labels chat_id).1 chat_id = none ∧
    dlookup (erase_data subs prefs labels chat_id).2.1 chat_id = none ∧
    dlookup (erase_data subs prefs labels chat_id).2.2.1 chat_id = none ∧
    erase_data (erase_data subs prefs labels chat_id).1
      (erase_data subs prefs labels chat_id).2.1
      (erase_data subs prefs labels chat_id).2.2.1 chat_id =
      ((erase_data subs prefs labels chat_id).1,
       (erase_data subs prefs labels chat_id).2.1,
       (erase_data subs prefs labels chat_id).2.2.1, false) ∧
    (∀ c : Int, ¬ c = chat_id →
      dlookup (erase_data subs prefs labels chat_id).1 c = dlookup subs c ∧
      dlookup (erase_data subs prefs labels chat_id).2.1 c = dlookup prefs c ∧
      dlookup (erase_data subs prefs labels chat_id).2.2.1 c = dlookup labels c) := by
  have hS : dlookup (erase_data subs prefs labels chat_id).1 chat_id = none :=
    dlookup_conddelete_self _ _
  have hP : dlookup (erase_data subs prefs labels chat_id).2.1 chat_id = none :=
    dlookup_conddelete_self _ _
  have hL : dlookup (erase_data subs prefs labels chat_id).2.2.1 chat_id = none :=
    dlookup_conddelete_self _ _
  refine ⟨hS, hP, hL, erase_data_of_none _ _ _ _ hS hP hL, ?_⟩
  · intro c hc
    exact ⟨dlookup_conddelete_ne _ _ _ (fun h => hc h.symm),
      dlookup_conddelete_ne _ _ _ (fun h => hc h.symm),
      dlookup_conddelete_ne _ _ _ (fun h => hc h.symm)⟩

/-- Witness for C7 at a concrete state: chat 1 erased, chat 2 untouched. -/
theorem erase_all_spec_witness :
    dlookup (erase_data [(1, [("1234567890", some 30)]), (2, [("9999999999", none)])]
      [(1, "daily")] [(1, [("1234567890", "mine")])] 1).1 1 = none ∧
    dlookup (erase_data [(1, [("1234567890", some 30)]), (2, [("9999999999", none)])]
      [(1, "daily")] [(1, [("1234567890", "mine")])] 1).1 2 =
      dlookup [(1, [("1234567890", some 30)]), (2, [("9999999999", none)])] 2 :=
  ⟨(erase_all_spec [(1, [("1234567890", some 30)]), (2, [("9999999999", none)])]
      [(1, "daily")] [(1, [("1234567890", "mine")])] 1).1,
   (((erase_all_spec [(1, [("1234567890", some 30)]), (2, [("9999999999", none)])]
      [(1, "daily")] [(1, [("1234567890", "mine")])] 1).2.2.2.2 2) (by decide)).1⟩

/-- Claim C10: the public read get_last_percent collapses "pair not tracked"
and "tracked with no observed percent" to the same answer None, while the
list operation distinguishes them: it enumerates exactly the tracked uids. -/
theorem get_last_percent_cannot_distinguish (subs : Subs) (chat_id : Int) (uid : String) :
    (dlookup ((dlookup subs chat_id).getD []) uid = none →
      get_last_percent subs chat_id uid = none) ∧
    (dlookup ((dlookup subs chat_id).getD []) uid = some none →
      get_last_percent subs chat_id uid = none) ∧
    (uid ∈ list_command_uids subs chat_id ↔
      (dlookup ((dlookup subs chat_id).getD []) uid).isSome) := by
  refine ⟨?_, ?_, ?_⟩
  · intro h
    unfold get_last_percent
    rw [h]
    rfl
  · intro h
    unfold get_last_percent
    rw [h]
    rfl
  · unfold list_command_uids
    exact (dlookup_isSome_iff_mem_keys _ _).symm

/-- Witness for C10: a tracked uid with absent percent reads as None yet is
listed; an untracked uid also reads as None. -/
theorem get_last_percent_cannot_distinguish_witness :
    get_last_percent [(1, [("1234567890", (none : Option Int))])] 1 "1234567890" = none ∧
    get_last_percent ([] : Subs) 1 "1234567890" = none ∧
    "1234567890" ∈ list_command_uids [(1, [("1234567890", (none : Option Int))])] 1 :=
  ⟨(get_last_percent_cannot_distinguish [(1, [("1234567890", none)])] 1 "1234567890").2.1
      (by decide),
   (get_last_percent_cannot_distinguish [] 1 "1234567890").1 (by decide),
   (get_last_percent_cannot_distinguish [(1, [("1234567890", none)])] 1 "1234567890").2.2.mpr
      (by decide)⟩

theorem get_last_percent_ensure (subs : Subs) (c : Int) (u : String) :
    (dlookup ((dlookup (if (dlookup subs c).isSome then subs
      else subs ++ [(c, [])]) c).getD []) u).join = get_last_percent subs c u := by
  rw [dlookup_ensure]
  by_cases h : (dlookup subs c).isSome
  · rw [if_pos h]
    rfl
  · rw [if_neg h, if_pos rfl]
    unfold get_last_percent
    rw [Option.not_isSome_iff_eq_none.mp h]
    rfl

theorem add_subscription_eq (subs : Subs) (chat_id : Int) (uid : String) (p : Option Int) :
    add_subscription subs chat_id uid p =
      if ¬ get_last_percent subs chat_id uid = p
      then (set_last_percent subs chat_id uid p, true)
      else ((if (dlookup subs chat_id).isSome then subs
        else subs ++ [(chat_id, [])]), false) := by
  unfold add_subscription set_last_percent
  simp only
  rw [get_last_percent_ensure subs chat_id uid]

/-- Claim C2 (amended): add_subscription writes iff the currently readable
percent (None when the pair is absent) differs from the given percent; after
the call the readable percent equals the given percent; and a second add with
the same percent never writes — so two adds with equal percent cause at most
one write (and zero writes when the value was already stored, including the
absent-pair/None case where no record is created at all). -/
theorem add_subscription_spec (subs : Subs) (chat_id : Int) (uid : String) (p : Option Int) :
    ((add_subscription subs chat_id uid p).2 = true ↔
      ¬ get_last_percent subs chat_id uid = p) ∧
    get_last_percent (add_subscription subs chat_id uid p).1 chat_id uid = p ∧
    (add_subscription (add_subscription subs chat_id uid p).1 chat_id uid p).2 = false := by
  have hget : get_last_percent (add_subscription subs chat_id uid p).1 chat_id uid = p := by
    rw [add_subscription_eq]
    by_cases h : get_last_percent subs chat_id uid = p
    · rw [if_neg (fun hn => hn h)]
      show (dlookup ((dlookup (if (dlookup subs chat_id).isSome then subs
        else subs ++ [(chat_id, [])]) chat_id).getD []) uid).join = p
      rw [get_last_percent_ensure subs chat_id uid]
      exact h
    · rw [if_pos h]
      exact get_last_percent_set_self subs chat_id uid p
  refine ⟨?_, hget, ?_⟩
  · rw [add_subscription_eq]
    by_cases h : get_last_percent subs chat_id uid = p
    · rw [if_neg (fun hn => hn h)]
      simp [h]
    · rw [if_pos h]
      simp [h]
  · rw [add_subscription_eq, if_neg (fun hn => hn hget)]

/-- Claim C2 counterexample: with no prior state, `add(1, uid, None)` neither
creates a tracked record for the pair (the chat entry stays empty) nor writes,
and a second identical call does not write either — so "creates the record
when the pair is absent" and "exactly one persistence write after two equal
adds" both fail on this input. -/
theorem add_subscription_counterexample :
    add_subscription [] 1 "1234567890" none = ([(1, [])], false) ∧
    dlookup ((dlookup (add_subscription [] 1 "1234567890" none).1 1).getD [])
      "1234567890" = none ∧
    (add_subscription (add_subscription [] 1 "1234567890" none).1 1 "1234567890" none).2
      = false := by
  refine ⟨?_, ?_, ?_⟩ <;> rfl

/-- Claim C6 counterexample: the raw integer 150 is out of the 0-100 range yet
normalization does not collapse it to absent — it passes through unchanged. -/
theorem normalize_out_of_range_counterexample :
    ¬ _normalize_last_percent (RawValue.vint 150) = none ∧
    _normalize_last_percent (RawValue.vint 150) = some 150 ∧
    (100 : Int) < 150 := by
  refine ⟨?_, rfl, by decide⟩
  intro h
  simp [_normalize_last_percent] at h

/-- Claim C6 (amended): normalization maps null and non-numeric raw values to
absent and parses integer strings, but passes every integer through unchanged —
including integers outside 0-100, which are not collapsed to absent; on an
already-normalized optional percent it is the identity. -/
theorem normalize_spec :
    (∀ n : Int, _normalize_last_percent (RawValue.vint n) = some n) ∧
    _normalize_last_percent RawValue.vnull = none ∧
    _normalize_last_percent RawValue.vother = none ∧
    (∀ s : String, _normalize_last_percent (RawValue.vstr s) = pyIntOfString s) ∧
    (∀ p : Option Int, normOpt p = p) :=
  ⟨fun _ => rfl, rfl, rfl, fun _ => rfl, normOpt_id⟩

theorem get_label_set_label_blank (labels : Labels) (chat_id : Int) (uid : String)
    (label : Option String) (hb : pyBlank label = true) :
    get_label (set_label labels chat_id uid label) chat_id uid = none := by
  unfold set_label
  simp only [hb, if_true]
  cases hcl : dlookup labels chat_id with
  | none =>
    unfold get_label
    rw [hcl]
    rfl
  | some inner =>
    dsimp only
    by_cases hu : (dlookup inner uid).isSome
    · rw [if_pos hu]
      by_cases he : (ddelete inner uid).isEmpty
      · rw [if_pos he]
        unfold get_label
        rw [dlookup_ddelete_self]
        rfl
      · rw [if_neg he]
        unfold get_label
        rw [dlookup_dinsert_self]
        simp only [Option.getD_some]
        exact dlookup_ddelete_self inner uid
    · rw [if_neg hu]
      unfold get_label
      rw [hcl]
      simp only [Option.getD_some]
      exact Option.not_isSome_iff_eq_none.mp hu

theorem remove_subscription_flag (subs : Subs) (chat_id : Int) (uid : String) :
    (remove_subscription subs chat_id uid).2 =
      (dlookup ((dlookup subs chat_id).getD []) uid).isSome := by
  unfold remove_subscription
  cases hcl : dlookup subs chat_id with
  | none => rfl
  | some inner =>
    dsimp only
    by_cases hu : (dlookup inner uid).isNone
    · rw [if_pos hu]
      simp only [Option.getD_some]
      rw [Option.isNone_iff_eq_none.mp hu]
      rfl
    · rw [if_neg hu]
      simp only [Option.getD_some]
      by_cases he : (ddelete inner uid).isEmpty
      · rw [if_pos he]
        cases hv : dlookup inner uid with
        | none => exact absurd (by rw [hv]; rfl) hu
        | some w => rfl
      · rw [if_neg he]
        cases hv : dlookup inner uid with
        | none => exact absurd (by rw [hv]; rfl) hu
        | some w => rfl

theorem remove_subscription_removes (subs : Subs) (chat_id : Int) (uid : String) :
    dlookup ((dlookup (remove_subscription subs chat_id uid).1 chat_id).getD []) uid
      = none := by
  unfold remove_subscription
  cases hcl : dlookup subs chat_id with
  | none =>
    simp only
    rw [hcl]
    rfl
  | some inner =>
    dsimp only
    by_cases hu : (dlookup inner uid).isNone
    · rw [if_pos hu]
      dsimp only
      rw [hcl]
      simp only [Option.getD_some]
      exact Option.isNone_iff_eq_none.mp hu
    · rw [if_neg hu]
      by_cases he : (ddelete inner uid).isEmpty
      · rw [if_pos he]
        dsimp only
        rw [dlookup_ddelete_self]
        rfl
      · rw [if_neg he]
        dsimp only
        rw [dlookup_dinsert_self]
        simp only [Option.getD_some]
        exact dlookup_ddelete_self inner uid

/-- Claim C9: remove_command removes the tracked record and reports whether it
existed, unconditionally deletes the label stored for that uid — even when the
removal reported false — and leaves the notification-mode table unchanged. -/
theorem remove_command_spec (subs : Subs) (prefs : Prefs) (labels : Labels)
    (chat_id : Int) (uid : String) :
    ((remove_command subs prefs labels chat_id uid).2.2.2 =
      (dlookup ((dlookup subs chat_id).getD []) uid).isSome) ∧
    dlookup ((dlookup (remove_command subs prefs labels chat_id uid).1 chat_id).getD [])
      uid = none ∧
    get_label (remove_command subs prefs labels chat_id uid).2.2.1 chat_id uid = none ∧
    (remove_command subs prefs labels chat_id uid).2.1 = prefs :=
  ⟨remove_subscription_flag subs chat_id uid,
   remove_subscription_removes subs chat_id uid,
   get_label_set_label_blank labels chat_id uid none rfl,
   rfl⟩

/-- The invariant that the labels table never holds a chat entry with zero labels. -/
def labelsNoEmpty (labels : Labels) : Prop := ∀ kv ∈ labels, kv.2 ≠ []

theorem dinsert_ne_nil {α β : Type} [DecidableEq α] (m : List (α × β)) (k : α) (v : β) :
    dinsert m k v ≠ [] := by
  unfold dinsert
  by_cases h : (dlookup m k).isSome
  · rw [if_pos h]
    intro hmap
    rw [List.map_eq_nil_iff] at hmap
    subst hmap
    simp [dlookup] at h
  · rw [if_neg h]
    simp

theorem labelsNoEmpty_ddelete (L : Labels) (k : Int) (hL : labelsNoEmpty L) :
    labelsNoEmpty (ddelete L k) := by
  intro kv hkv
  exact hL kv (List.mem_of_mem_filter hkv)

theorem labelsNoEmpty_dinsert (L : Labels) (k : Int) (v : List (String × String))
    (hL : labelsNoEmpty L) (hv : v ≠ []) : labelsNoEmpty (dinsert L k v) := by
  intro kv hkv
  unfold dinsert at hkv
  by_cases h : (dlookup L k).isSome
  · rw [if_pos h] at hkv
    rcases List.mem_map.mp hkv with ⟨x, hx, hrep⟩
    unfold replaceKey at hrep
    by_cases hxk : x.1 = k
    · rw [if_pos hxk] at hrep
      rw [← hrep]
      exact hv
    · rw [if_neg hxk] at hrep
      rw [← hrep]
      exact hL x hx
  · rw [if_neg h] at hkv
    rcases List.mem_append.mp hkv with hx | hx
    · exact hL kv hx
    · rw [List.mem_singleton.mp hx]
      exact hv

/-- Claim C8: setting a label with an empty/blank string removes the mapping
for that identifier entirely (it reads back as absent), and set_label — in both
its delete and its store branch — preserves the invariant that no chat entry
with zero labels exists in the table. -/
theorem set_label_spec (labels : Labels) (chat_id : Int) (uid : String)
    (label : Option String) (hinv : labelsNoEmpty labels) :
    (pyBlank label = true → get_label (set_label labels chat_id uid label) chat_id uid = none) ∧
    labelsNoEmpty (set_label labels chat_id uid label) := by
  refine ⟨fun hb => get_label_set_label_blank labels chat_id uid label hb, ?_⟩
  unfold set_label
  by_cases hb : pyBlank label = true
  · rw [if_pos hb]
    cases hcl : dlookup labels chat_id with
    | none => exact hinv
    | some inner =>
      dsimp only
      by_cases hu : (dlookup inner uid).isSome
      · rw [if_pos hu]
        by_cases he : (ddelete inner uid).isEmpty
        · rw [if_pos he]
          exact labelsNoEmpty_ddelete labels chat_id hinv
        · rw [if_neg he]
          exact labelsNoEmpty_dinsert labels chat_id _ hinv
            (by
              intro hnil
              exact he (by rw [hnil]; rfl))
      · rw [if_neg hu]
        exact hinv
  · rw [if_neg hb]
    exact labelsNoEmpty_dinsert labels chat_id _ hinv (dinsert_ne_nil _ _ _)

/-- Witness for C8: a vertical-tab-only label — blank for Python's strip() —
deletes the only label of chat 1 at a concrete state. -/
theorem set_label_spec_witness :
    get_label (set_label [(1, [("1234567890", "docs")])] 1 "1234567890"
      (some "\x0B")) 1 "1234567890" = none ∧
    labelsNoEmpty (set_label [(1, [("1234567890", "docs")])] 1 "1234567890"
      (some "\x0B")) :=
  ⟨(set_label_spec [(1, [("1234567890", "docs")])] 1 "1234567890" (some "\x0B")
      (by unfold labelsNoEmpty; decide)).1 (by decide),
   (set_label_spec [(1, [("1234567890", "docs")])] 1 "1234567890" (some "\x0B")
      (by unfold labelsNoEmpty; decide)).2⟩

/-- Claim C1: for a (chat, uid) pair processed by the scheduled run with a
successful fetch — in daily mode a notification is always sent; in on_change
mode a notification is sent iff the previously stored percent (None when the
pair is untracked or has no observed value) differs from the freshly fetched
normalized percent, None being distinct from every integer; and in every mode,
in both the notify and the skip branch, the stored percent afterwards equals
the freshly fetched percent. -/
theorem scheduled_policy (prefs : Prefs) (fetch : String → Option (Option Int))
    (chat_id : Int) (uid : String) (subs : Subs) (praw : Option Int)
    (hf : fetch uid = some praw) :
    (get_notify_mode prefs chat_id = "daily" →
      (checkPair prefs fetch chat_id uid subs).1 =
        [Event.statusNotice chat_id uid (normOpt praw)]) ∧
    (get_notify_mode prefs chat_id = "on_change" →
      (((checkPair prefs fetch chat_id uid subs).1 =
          [Event.statusNotice chat_id uid (normOpt praw)]) ↔
        ¬ get_last_percent subs chat_id uid = normOpt praw) ∧
      (((checkPair prefs fetch chat_id uid subs).1 = []) ↔
        get_last_percent subs chat_id uid = normOpt praw)) ∧
    get_last_percent (checkPair prefs fetch chat_id uid subs).2 chat_id uid
      = normOpt praw := by
  unfold checkPair
  rw [hf]
  dsimp only
  by_cases hcond : get_notify_mode prefs chat_id = "on_change" ∧
      get_last_percent subs chat_id uid = normOpt praw
  · rw [if_pos hcond]
    refine ⟨?_, ?_, hcond.2⟩
    · intro hd
      exact absurd (hd ▸ hcond.1) (by decide)
    · intro _
      constructor
      · constructor
        · intro h
          exact absurd h (by simp)
        · intro h
          exact absurd hcond.2 h
      · exact ⟨fun _ => hcond.2, fun _ => rfl⟩
  · rw [if_neg hcond]
    refine ⟨fun _ => rfl, ?_, get_last_percent_set_self subs chat_id uid (normOpt praw)⟩
    intro hoc
    have hne : ¬ get_last_percent subs chat_id uid = normOpt praw :=
      fun he => hcond ⟨hoc, he⟩
    constructor
    · exact ⟨fun _ => hne, fun _ => rfl⟩
    · constructor
      · intro h
        exact absurd h (by simp)
      · intro he
        exact absurd he hne

/-- Witness for C1: default (on_change) mode, untracked pair, fetched percent 5:
one notification, stored percent becomes 5. -/
theorem scheduled_policy_witness :
    (checkPair [] (fun _ => some (some 5)) 1 "1234567890" []).1 =
      [Event.statusNotice 1 "1234567890" (normOpt (some 5))] ∧
    get_last_percent (checkPair [] (fun _ => some (some 5)) 1 "1234567890" []).2
      1 "1234567890" = normOpt (some 5) :=
  ⟨((scheduled_policy [] (fun _ => some (some 5)) 1 "1234567890" [] (some 5)
      rfl).2.1 rfl).1.mpr (by decide),
   (scheduled_policy [] (fun _ => some (some 5)) 1 "1234567890" [] (some 5) rfl).2.2⟩

/-- Claim C5 counterexample: a subscriptions entry whose payload is neither an
array nor a mapping is NOT dropped — the subscriber is loaded with an empty
tracked set, so the loaded table still contains an entry for that key. -/
theorem load_subscriptions_nonmapping_counterexample :
    load_subscriptions [("5", RawSubsEntry.other)] = [(5, [])] ∧
    ¬ dlookup (load_subscriptions [("5", RawSubsEntry.other)]) 5 = none := by
  constructor
  · decide
  · decide

/-- Claim C5 (amended): every loader processes entries individually (the load
of a concatenation is the concatenation of the loads, so one bad entry never
aborts the rest); entries with a non-integer subscriber key are dropped by all
three loaders; a chat-prefs mode outside {on_change, daily} is dropped; a
non-mapping labels payload is dropped; but a subscriptions payload that is
neither an array nor a mapping yields an empty entry for that subscriber
instead of being dropped. -/
theorem load_skips_bad_entries :
    (∀ a b, load_subscriptions (a ++ b) = load_subscriptions a ++ load_subscriptions b) ∧
    (∀ k v, pyIntOfString k = none → load_subscriptions [(k, v)] = []) ∧
    (∀ k chat_id, pyIntOfString k = some chat_id →
      load_subscriptions [(k, RawSubsEntry.other)] = [(chat_id, [])]) ∧
    (∀ a b, load_chat_prefs (a ++ b) = load_chat_prefs a ++ load_chat_prefs b) ∧
    (∀ k m, pyIntOfString k = none → load_chat_prefs [(k, m)] = []) ∧
    (∀ k chat_id m, pyIntOfString k = some chat_id → ¬ (m = "on_change" ∨ m = "daily") →
      load_chat_prefs [(k, m)] = []) ∧
    (∀ k chat_id m, pyIntOfString k = some chat_id → (m = "on_change" ∨ m = "daily") →
      load_chat_prefs [(k, m)] = [(chat_id, m)]) ∧
    (∀ a b, load_labels (a ++ b) = load_labels a ++ load_labels b) ∧
    (∀ k v, pyIntOfString k = none → load_labels [(k, v)] = []) ∧
    (∀ k chat_id, pyIntOfString k = some chat_id →
      load_labels [(k, RawLabelsEntry.other)] = []) := by
  refine ⟨?_, ?_, ?_, ?_, ?_, ?_, ?_, ?_, ?_, ?_⟩
  · intro a b
    unfold load_subscriptions
    exact List.filterMap_append a b _
  · intro k v h
    unfold load_subscriptions
    simp [List.filterMap_cons, h]
  · intro k chat_id h
    unfold load_subscriptions
    simp [List.filterMap_cons, h]
  · intro a b
    unfold load_chat_prefs
    exact List.filterMap_append a b _
  · intro k m h
    unfold load_chat_prefs
    simp [List.filterMap_cons, h]
  · intro k chat_id m h hm
    unfold load_chat_prefs
    simp [List.filterMap_cons, h, hm]
  · intro k chat_id m h hm
    unfold load_chat_prefs
    simp [List.filterMap_cons, h, hm]
  · intro a b
    unfold load_labels
    exact List.filterMap_append a b _
  · intro k v h
    unfold load_labels
    simp [List.filterMap_cons, h]
  · intro k chat_id h
    unfold load_labels
    simp [List.filterMap_cons, h]

/-- Witness for C5 at concrete inputs: a non-numeric key is skipped by each
loader, a bad mode is skipped, a non-mapping labels payload is skipped, good
entries in the same file are still loaded, and a key written as "+5" — which
Python's int() parses — is loaded, not dropped. -/
theorem load_skips_bad_entries_witness :
    load_subscriptions [("x", RawSubsEntry.arr ["1234567890"])] = [] ∧
    load_chat_prefs [("5", "weekly")] = [] ∧
    load_labels [("5", RawLabelsEntry.other)] = [] ∧
    load_chat_prefs [("+5", "daily")] = [(5, "daily")] ∧
    load_chat_prefs ([("x", "daily")] ++ [("5", "daily")]) =
      load_chat_prefs [("x", "daily")] ++ load_chat_prefs [("5", "daily")] :=
  ⟨load_skips_bad_entries.2.1 "x" _ (by decide),
   load_skips_bad_entries.2.2.2.2.2.1 "5" 5 "weekly" (by decide) (by decide),
   load_skips_bad_entries.2.2.2.2.2.2.2.2.2 "5" 5 (by decide),
   load_skips_bad_entries.2.2.2.2.2.2.1 "+5" 5 "daily" (by decide) (Or.inr rfl),
   load_skips_bad_entries.2.2.2.1 [("x", "daily")] [("5", "daily")]⟩

/-! ## Round trip of the decimal codec -/

theorem digitChar_toNat (d : Nat) (hd : d < 10) : (digitChar d).toNat = 48 + d := by
  interval_cases d <;> decide

theorem pyStrOfNat_data_digit (n : Nat) :
    ∀ c ∈ (pyStrOfNat n).data, 48 ≤ c.toNat ∧ c.toNat ≤ 57 := by
  unfold pyStrOfNat
  by_cases h : n = 0
  · rw [if_pos h]
    intro c hc
    have : c = '0' := by simpa using hc
    subst this
    decide
  · rw [if_neg h]
    intro c hc
    rcases List.mem_map.mp hc with ⟨d, hd, rfl⟩
    have hd10 : d < 10 := Nat.digits_lt_base (by norm_num) (List.mem_reverse.mp hd)
    interval_cases d <;> exact (by decide)

theorem pyDigitVal?_ascii (c : Char) (h1 : 48 ≤ c.toNat) (h2 : c.toNat ≤ 57) :
    pyDigitVal? c = some (c.toNat - 48) := by
  unfold pyDigitVal? pyDigitZeros
  rw [List.find?_cons_of_pos]
  · simp only [decide_eq_true_eq]
    exact ⟨h1, by omega⟩

theorem pyDigitsRest_all_digits (l : List Char)
    (hl : ∀ c ∈ l, 48 ≤ c.toNat ∧ c.toNat ≤ 57) (acc : Nat) :
    pyDigitsRest acc l =
      some (l.foldl (fun a c => a * 10 + (c.toNat - 48)) acc) := by
  induction l generalizing acc with
  | nil => rfl
  | cons c cs ih =>
    have hc := hl c (List.mem_cons_self _ _)
    have hne : ¬ c = '_' := by
      intro h
      have h95 : c.toNat = 95 := by rw [h]; rfl
      omega
    unfold pyDigitsRest
    rw [if_neg hne, pyDigitVal?_ascii c hc.1 hc.2]
    dsimp only
    rw [ih (fun x hx => hl x (List.mem_cons_of_mem _ hx))]
    rfl

theorem pyParseDigits_all_digits (l : List Char) (hne : l ≠ [])
    (hl : ∀ c ∈ l, 48 ≤ c.toNat ∧ c.toNat ≤ 57) :
    pyParseDigits l = some (l.foldl (fun a c => a * 10 + (c.toNat - 48)) 0) := by
  cases l with
  | nil => exact absurd rfl hne
  | cons c cs =>
    have hc := hl c (List.mem_cons_self _ _)
    unfold pyParseDigits
    dsimp only
    rw [pyDigitVal?_ascii c hc.1 hc.2]
    dsimp only
    rw [pyDigitsRest_all_digits cs (fun x hx => hl x (List.mem_cons_of_mem _ hx))]
    congr 1
    rw [List.foldl_cons]
    congr 1
    omega

theorem foldl_digitChar_eq (ds : List Nat) (hds : ∀ d ∈ ds, d < 10) (acc : Nat) :
    ((ds.reverse).map digitChar).foldl (fun a c => a * 10 + (c.toNat - 48)) acc =
      acc * 10 ^ ds.length + Nat.ofDigits 10 ds := by
  induction ds generalizing acc with
  | nil => simp [Nat.ofDigits_nil]
  | cons d ds ih =>
    have hd : d < 10 := hds d (List.mem_cons_self _ _)
    rw [List.reverse_cons, List.map_append, List.foldl_append,
      ih (fun x hx => hds x (List.mem_cons_of_mem _ hx)) acc]
    simp only [List.map_cons, List.map_nil, List.foldl_cons, List.foldl_nil]
    rw [digitChar_toNat d hd, Nat.ofDigits_cons, List.length_cons]
    have h48 : 48 + d - 48 = d := by omega
    rw [h48]
    ring

theorem pyParseDigits_pyStrOfNat (n : Nat) :
    pyParseDigits (pyStrOfNat n).data = some n := by
  by_cases h : n = 0
  · subst h
    decide
  · have hne : (pyStrOfNat n).data ≠ [] := by
      unfold pyStrOfNat
      rw [if_neg h]
      show (((Nat.digits 10 n).reverse).map digitChar) ≠ []
      simp [List.map_eq_nil_iff, List.reverse_eq_nil_iff,
        Nat.digits_ne_nil_iff_ne_zero, h]
    rw [pyParseDigits_all_digits _ hne (pyStrOfNat_data_digit n)]
    congr 1
    unfold pyStrOfNat
    rw [if_neg h]
    show (((Nat.digits 10 n).reverse).map digitChar).foldl
      (fun a c => a * 10 + (c.toNat - 48)) 0 = n
    rw [foldl_digitChar_eq _ (fun d hd => Nat.digits_lt_base (by norm_num) hd) 0,
      Nat.ofDigits_digits]
    simp

theorem dropWhile_eq_self_of_all {p : Char → Bool} (l : List Char)
    (hl : ∀ c ∈ l, p c = false) : l.dropWhile p = l := by
  cases l with
  | nil => rfl
  | cons c cs =>
    rw [List.dropWhile_cons, hl c (List.mem_cons_self _ _)]
    simp

theorem pyStrip_eq_self (l : List Char) (hl : ∀ c ∈ l, pyIsSpace c = false) :
    pyStrip l = l := by
  unfold pyStrip
  rw [dropWhile_eq_self_of_all l hl,
    dropWhile_eq_self_of_all l.reverse (fun c hc => hl c (List.mem_reverse.mp hc)),
    List.reverse_reverse]

theorem pyIsSpace_digit_false (c : Char) (h1 : 48 ≤ c.toNat) (h2 : c.toNat ≤ 57) :
    pyIsSpace c = false := by
  unfold pyIsSpace
  simp only [decide_eq_false_iff_not]
  omega

theorem pyIntOfString_pyStrOfInt (i : Int) :
    pyIntOfString (pyStrOfInt i) = some i := by
  unfold pyStrOfInt
  by_cases hneg : i < 0
  · rw [if_pos hneg]
    unfold pyIntOfString
    rw [String.data_append,
      show ("-" : String).data = ['-'] from rfl, List.singleton_append]
    rw [pyStrip_eq_self ('-' :: (pyStrOfNat i.natAbs).data) (by
      intro c hc
      rcases List.mem_cons.mp hc with rfl | hc'
      · decide
      · have h := pyStrOfNat_data_digit i.natAbs c hc'
        exact pyIsSpace_digit_false c h.1 h.2)]
    dsimp only
    rw [if_pos rfl, pyParseDigits_pyStrOfNat]
    show some (-(i.natAbs : Int)) = some i
    congr 1
    omega
  · rw [if_neg hneg]
    unfold pyIntOfString
    rw [pyStrip_eq_self (pyStrOfNat i.toNat).data (fun c hc =>
      pyIsSpace_digit_false c (pyStrOfNat_data_digit i.toNat c hc).1
        (pyStrOfNat_data_digit i.toNat c hc).2)]
    have hp := pyParseDigits_pyStrOfNat i.toNat
    cases hdata : (pyStrOfNat i.toNat).data with
    | nil =>
      rw [hdata, show pyParseDigits [] = none from rfl] at hp
      exact Option.noConfusion hp
    | cons c cs =>
      rw [hdata] at hp
      have hdigit := pyStrOfNat_data_digit i.toNat c
        (by rw [hdata]; exact List.mem_cons_self _ _)
      have hcm : ¬ c = '-' := by
        intro hc
        have h45 : c.toNat = 45 := by rw [hc]; rfl
        omega
      have hcp : ¬ c = '+' := by
        intro hc
        have h43 : c.toNat = 43 := by rw [hc]; rfl
        omega
      dsimp only
      rw [if_neg hcm, if_neg hcp, hp]
      show some ((i.toNat : Int)) = some i
      congr 1
      omega

theorem load_subscriptions_append (a b : List (String × RawSubsEntry)) :
    load_subscriptions (a ++ b) = load_subscriptions a ++ load_subscriptions b :=
  List.filterMap_append a b _

theorem normalize_rawOfOpt_map (l : List (String × Option Int)) :
    (l.map (fun p => (p.1, rawOfOpt p.2))).map
      (fun p => (p.1, _normalize_last_percent p.2)) = l := by
  induction l with
  | nil => rfl
  | cons p rest ih =>
    simp only [List.map_cons]
    rw [ih]
    congr 1
    show (p.1, normOpt p.2) = p
    rw [normOpt_id]

theorem load_save_single (chat : Int) (inner : List (String × Option Int)) :
    load_subscriptions [(pyStrOfInt chat,
      RawSubsEntry.map (inner.map (fun p => (p.1, rawOfOpt p.2))))] = [(chat, inner)] := by
  unfold load_subscriptions
  simp only [List.filterMap_cons, List.filterMap_nil]
  rw [pyIntOfString_pyStrOfInt]
  show [(chat, (inner.map (fun p => (p.1, rawOfOpt p.2))).map
    (fun p => (p.1, _normalize_last_percent p.2)))] = [(chat, inner)]
  rw [normalize_rawOfOpt_map]

theorem normalize_vnull_map (us : List String) :
    (us.map (fun u => (u, RawValue.vnull))).map
      (fun p => (p.1, _normalize_last_percent p.2)) =
      us.map (fun u => (u, (none : Option Int))) := by
  induction us with
  | nil => rfl
  | cons u rest ih =>
    simp only [List.map_cons]
    rw [ih]
    rfl

/-- Claim C4: saving the subscriptions table and loading it back reproduces
the very same table (same chats, same uids, same optional percents, same
order), and the loader accepts the legacy array format — each listed uid
becomes tracked with last_percent None — producing exactly the same unified
in-memory shape as the current mapping format with null percents. -/
theorem subscriptions_round_trip :
    (∀ subs : Subs, load_subscriptions (save_subscriptions subs) = subs) ∧
    (∀ k chat_id uids, pyIntOfString k = some chat_id →
      load_subscriptions [(k, RawSubsEntry.arr uids)] =
        [(chat_id, uids.map (fun uid => (uid, (none : Option Int))))] ∧
      load_subscriptions [(k, RawSubsEntry.arr uids)] =
        load_subscriptions [(k, RawSubsEntry.map
          (uids.map (fun u => (u, RawValue.vnull))))]) := by
  constructor
  · intro subs
    induction subs with
    | nil => rfl
    | cons kv rest ih =>
      cases kv with
      | mk chat inner =>
        unfold save_subscriptions
        rw [List.map_cons]
        rw [show ((pyStrOfInt chat, RawSubsEntry.map (inner.map (fun p =>
            (p.1, rawOfOpt p.2)))) :: rest.map (fun kv => (pyStrOfInt kv.1,
            RawSubsEntry.map (kv.2.map (fun p => (p.1, rawOfOpt p.2)))))) =
          [(pyStrOfInt chat, RawSubsEntry.map (inner.map (fun p =>
            (p.1, rawOfOpt p.2))))] ++ rest.map (fun kv => (pyStrOfInt kv.1,
            RawSubsEntry.map (kv.2.map (fun p => (p.1, rawOfOpt p.2))))) from rfl]
        rw [load_subscriptions_append, load_save_single]
        unfold save_subscriptions at ih
        rw [ih]
        rfl
  · intro k chat_id uids h
    constructor
    · unfold load_subscriptions
      simp only [List.filterMap_cons, List.filterMap_nil]
      rw [h]
    · unfold load_subscriptions
      simp only [List.filterMap_cons, List.filterMap_nil]
      rw [h]
      show [(chat_id, uids.map (fun uid => (uid, (none : Option Int))))] =
        [(chat_id, (uids.map (fun u => (u, RawValue.vnull))).map
          (fun p => (p.1, _normalize_last_percent p.2)))]
      rw [normalize_vnull_map]

/-- Witness for C4 at a concrete table and a concrete legacy entry. -/
theorem subscriptions_round_trip_witness :
    load_subscriptions (save_subscriptions [(5, [("1234567890", some 30)])]) =
      [(5, [("1234567890", some 30)])] ∧
    load_subscriptions [("7", RawSubsEntry.arr ["1234567890"])] =
      [(7, (["1234567890"] : List String).map (fun u => (u, (none : Option Int))))] :=
  ⟨subscriptions_round_trip.1 [(5, [("1234567890", some 30)])],
   (subscriptions_round_trip.2 "7" 7 ["1234567890"] (by decide)).1⟩

/-! ## Lemmas about the full scheduled run (claim C3) -/

theorem checkPair_state_preserved (prefs : Prefs) (fetch : String → Option (Option Int))
    (c : Int) (u : String) (chat_id : Int) (uid : String)
    (hf : fetch uid = none) (subs : Subs) :
    get_last_percent (checkPair prefs fetch c u subs).2 chat_id uid =
      get_last_percent subs chat_id uid := by
  unfold checkPair
  cases hfu : fetch u with
  | none => rfl
  | some praw =>
    dsimp only
    by_cases hcond : get_notify_mode prefs c = "on_change" ∧
        get_last_percent subs c u = normOpt praw
    · rw [if_pos hcond]
    · rw [if_neg hcond]
      dsimp only
      by_cases hcu : c = chat_id ∧ u = uid
      · exfalso
        rw [hcu.2] at hfu
        rw [hf] at hfu
        exact Option.noConfusion hfu
      · exact get_last_percent_set_ne subs c u (normOpt praw) chat_id uid hcu

theorem checkChat_state_preserved (prefs : Prefs) (fetch : String → Option (Option Int))
    (c : Int) (chat_id : Int) (uid : String) (hf : fetch uid = none) :
    ∀ (uids : List String) (subs : Subs),
      get_last_percent (checkChat prefs fetch c uids subs).2 chat_id uid =
        get_last_percent subs chat_id uid := by
  intro uids
  induction uids with
  | nil => intro subs; rfl
  | cons u rest ih =>
    intro subs
    unfold checkChat
    dsimp only
    rw [ih, checkPair_state_preserved prefs fetch c u chat_id uid hf subs]

theorem runChats_state_preserved (prefs : Prefs) (fetch : String → Option (Option Int))
    (chat_id : Int) (uid : String) (hf : fetch uid = none) :
    ∀ (chats : List (Int × List (String × Option Int))) (subs : Subs),
      get_last_percent (runChats prefs fetch chats subs).2 chat_id uid =
        get_last_percent subs chat_id uid := by
  intro chats
  induction chats with
  | nil => intro subs; rfl
  | cons kv rest ih =>
    intro subs
    cases kv with
    | mk c inner =>
      unfold runChats
      dsimp only
      rw [ih, checkChat_state_preserved prefs fetch c chat_id uid hf]

theorem checkPair_count_fail (prefs : Prefs) (fetch : String → Option (Option Int))
    (c : Int) (u : String) (subs : Subs) (chat_id : Int) (uid : String) :
    List.count (Event.failNotice chat_id uid) (checkPair prefs fetch c u subs).1 =
      if c = chat_id ∧ u = uid ∧ fetch u = none then 1 else 0 := by
  unfold checkPair
  cases hfu : fetch u with
  | none =>
    dsimp only
    rw [List.count_singleton']
    by_cases h : c = chat_id ∧ u = uid
    · rw [if_pos (by simp [Event.failNotice.injEq, h.1, h.2]), if_pos ⟨h.1, h.2, rfl⟩]
    · rw [if_neg (by
        simp only [Event.failNotice.injEq]
        intro hh
        exact h ⟨hh.1, hh.2⟩),
        if_neg (fun hh => h ⟨hh.1, hh.2.1⟩)]
  | some praw =>
    dsimp only
    by_cases hcond : get_notify_mode prefs c = "on_change" ∧
        get_last_percent subs c u = normOpt praw
    · rw [if_pos hcond]
      dsimp only
      rw [show List.count (Event.failNotice chat_id uid) ([] : List Event) = 0 from rfl]
      rw [if_neg (fun hh => Option.noConfusion hh.2.2)]
    · rw [if_neg hcond]
      dsimp only
      rw [List.count_singleton']
      rw [if_neg (by simp)]
      rw [if_neg (fun hh => Option.noConfusion hh.2.2)]

theorem checkChat_count_fail (prefs : Prefs) (fetch : String → Option (Option Int))
    (chat_id : Int) (uid : String) (hf : fetch uid = none) (c : Int) :
    ∀ (uids : List String) (subs : Subs),
      List.count (Event.failNotice chat_id uid) (checkChat prefs fetch c uids subs).1 =
        if c = chat_id then uids.count uid else 0 := by
  intro uids
  induction uids with
  | nil =>
    intro subs
    by_cases hc : c = chat_id <;> simp [checkChat, hc]
  | cons u rest ih =>
    intro subs
    unfold checkChat
    dsimp only
    rw [List.count_append, checkPair_count_fail, ih]
    by_cases hc : c = chat_id
    · rw [if_pos hc, if_pos hc]
      by_cases hu : u = uid
      · subst hu
        rw [if_pos ⟨hc, rfl, hf⟩, List.count_cons]
        simp only [beq_self_eq_true, if_true]
        omega
      · rw [if_neg (fun hh => hu hh.2.1), List.count_cons]
        simp only [beq_iff_eq, hu, if_false]
        omega
    · rw [if_neg hc, if_neg hc, if_neg (fun hh => hc hh.1)]

theorem runChats_count_fail (prefs : Prefs) (fetch : String → Option (Option Int))
    (chat_id : Int) (uid : String) (hf : fetch uid = none) :
    ∀ (chats : List (Int × List (String × Option Int))) (subs : Subs),
      List.count (Event.failNotice chat_id uid) (runChats prefs fetch chats subs).1 =
        (chats.map (fun kv =>
          if kv.1 = chat_id then (kv.2.map Prod.fst).count uid else 0)).sum := by
  intro chats
  induction chats with
  | nil => intro subs; rfl
  | cons kv rest ih =>
    intro subs
    cases kv with
    | mk c inner =>
      unfold runChats
      dsimp only
      rw [List.count_append, checkChat_count_fail prefs fetch chat_id uid hf c, ih,
        List.map_cons, List.sum_cons]

theorem sum_countPairs_zero (chat_id : Int) (uid : String) :
    ∀ chats : List (Int × List (String × Option Int)), chat_id ∉ chats.map Prod.fst →
      (chats.map (fun kv =>
        if kv.1 = chat_id then (kv.2.map Prod.fst).count uid else 0)).sum = 0 := by
  intro chats
  induction chats with
  | nil => intro _; rfl
  | cons kv rest ih =>
    intro hmem
    rw [List.map_cons, List.sum_cons]
    have hc : ¬ kv.1 = chat_id := by
      intro h
      exact hmem (by rw [List.map_cons, ← h]; exact List.mem_cons_self _ _)
    rw [if_neg hc,
      ih (fun hm => hmem (by rw [List.map_cons]; exact List.mem_cons_of_mem _ hm))]

theorem sum_countPairs_single (chat_id : Int) (uid : String) :
    ∀ (chats : List (Int × List (String × Option Int)))
      (inner : List (String × Option Int)),
      (chats.map Prod.fst).Nodup → dlookup chats chat_id = some inner →
      (chats.map (fun kv =>
        if kv.1 = chat_id then (kv.2.map Prod.fst).count uid else 0)).sum =
        (inner.map Prod.fst).count uid := by
  intro chats
  induction chats with
  | nil => intro inner _ h; exact Option.noConfusion h
  | cons kv rest ih =>
    intro inner hnd hdl
    cases kv with
    | mk c m =>
      rw [List.map_cons, List.sum_cons]
      rw [dlookup_cons] at hdl
      rw [List.map_cons] at hnd
      by_cases hc : c = chat_id
      · rw [if_pos hc] at hdl
        injection hdl with hdl
        subst hdl
        rw [if_pos hc]
        rw [sum_countPairs_zero chat_id uid rest
          (by rw [← hc]; exact (List.nodup_cons.mp hnd).1)]
        dsimp only
        omega
      · rw [if_neg hc] at hdl
        rw [if_neg hc, ih inner (List.nodup_cons.mp hnd).2 hdl]
        omega

theorem checkChat_mem_fail (prefs : Prefs) (fetch : String → Option (Option Int))
    (c : Int) (u : String) (hf : fetch u = none) :
    ∀ (uids : List String) (subs : Subs), u ∈ uids →
      Event.failNotice c u ∈ (checkChat prefs fetch c uids subs).1 := by
  intro uids
  induction uids with
  | nil => intro subs h; exact absurd h (List.not_mem_nil u)
  | cons u0 rest ih =>
    intro subs hmem
    unfold checkChat
    dsimp only
    rw [List.mem_append]
    rcases List.mem_cons.mp hmem with heq | hmem'
    · left
      subst heq
      unfold checkPair
      rw [hf]
      exact List.mem_cons_self _ _
    · right
      exact ih _ hmem'

theorem runChats_mem_fail (prefs : Prefs) (fetch : String → Option (Option Int)) :
    ∀ (chats : List (Int × List (String × Option Int))) (subs : Subs) (c : Int)
      (m : List (String × Option Int)) (u : String),
      (c, m) ∈ chats → u ∈ m.map Prod.fst → fetch u = none →
      Event.failNotice c u ∈ (runChats prefs fetch chats subs).1 := by
  intro chats
  induction chats with
  | nil => intro subs c m u h _ _; exact absurd h (List.not_mem_nil _)
  | cons kv rest ih =>
    intro subs c m u hmem humem hf
    cases kv with
    | mk c0 m0 =>
      unfold runChats
      dsimp only
      rw [List.mem_append]
      rcases List.mem_cons.mp hmem with heq | hmem'
      · left
        cases heq
        exact checkChat_mem_fail prefs fetch c u hf (m.map Prod.fst) subs humem
      · right
        exact ih _ c m u hmem' humem hf

/-- Well-formedness guaranteed by Python dicts: outer chat keys are distinct,
and each chat's inner uid keys are distinct. -/
def SubsWF (subs : Subs) : Prop :=
  (subs.map Prod.fst).Nodup ∧ ∀ kv ∈ subs, (kv.2.map Prod.fst).Nodup

/-- Claim C3: for a tracked (chat, uid) pair whose fetch fails during the
scheduled run, exactly one failure notice is sent to that chat for that uid,
the stored percent for the pair is left unchanged, and the run continues
through all remaining identifiers and subscribers — every other failing
tracked pair still gets its failure notice. -/
theorem scheduled_fetch_failure (prefs : Prefs) (fetch : String → Option (Option Int))
    (subs : Subs) (chat_id : Int) (uid : String)
    (hwf : SubsWF subs)
    (htr : (dlookup ((dlookup subs chat_id).getD []) uid).isSome)
    (hf : fetch uid = none) :
    List.count (Event.failNotice chat_id uid) (scheduled_check prefs fetch subs).1 = 1 ∧
    get_last_percent (scheduled_check prefs fetch subs).2 chat_id uid =
      get_last_percent subs chat_id uid ∧
    (∀ c m u, (c, m) ∈ subs → u ∈ m.map Prod.fst → fetch u = none →
      Event.failNotice c u ∈ (scheduled_check prefs fetch subs).1) := by
  cases hcl : dlookup subs chat_id with
  | none =>
    rw [hcl] at htr
    exact absurd htr (by simp [dlookup])
  | some inner =>
    rw [hcl] at htr
    simp only [Option.getD_some] at htr
    refine ⟨?_, ?_, ?_⟩
    · unfold scheduled_check
      rw [runChats_count_fail prefs fetch chat_id uid hf subs subs,
        sum_countPairs_single chat_id uid subs inner hwf.1 hcl]
      exact List.count_eq_one_of_mem
        (hwf.2 (chat_id, inner) (dlookup_eq_some_mem subs chat_id inner hcl))
        ((dlookup_isSome_iff_mem_keys inner uid).mp htr)
    · exact runChats_state_preserved prefs fetch chat_id uid hf subs subs
    · intro c m u h1 h2 h3
      exact runChats_mem_fail prefs fetch subs subs c m u h1 h2 h3

/-- Witness for C3: one tracked pair, fetch always failing — one failure
notice, stored percent still 20. -/
theorem scheduled_fetch_failure_witness :
    List.count (Event.failNotice 1 "1234567890")
      (scheduled_check [] (fun _ => none) [(1, [("1234567890", some 20)])]).1 = 1 ∧
    get_last_percent (scheduled_check [] (fun _ => none)
      [(1, [("1234567890", some 20)])]).2 1 "1234567890" =
      get_last_percent [(1, [("1234567890", some 20)])] 1 "1234567890" :=
  ⟨(scheduled_fetch_failure [] (fun _ => none) [(1, [("1234567890", some 20)])] 1
      "1234567890" (by unfold SubsWF; decide) (by decide) rfl).1,
   (scheduled_fetch_failure [] (fun _ => none) [(1, [("1234567890", some 20)])] 1
      "1234567890" (by unfold SubsWF; decide) (by decide) rfl).2.1⟩
